import Mathlib

attribute [local semireducible] Rat.add Rat.sub Rat.mul Rat.inv Rat.ofScientific

/-!
Verification of the arbitrage / sentiment collection pipeline.

Shallow embedding conventions:
- Python floats are modelled as rationals (ℚ); all arithmetic in the analysed
  code paths is exact at the inputs we reason about.
- Python dict rows coming from the CoinCap markets endpoint are modelled by the
  record `Market` (keys exchangeId, priceUsd, volumeUsd24Hr after float
  conversion); rows whose fields are present and numeric, which is the case the
  analyser contract speaks about.
- Python `sorted` is a stable sort; `List.insertionSort` is stable for a total
  preorder relation, hence extensionally the same function, and is used as the
  embedding of `sorted` (ascending: relation keyA ≤ keyB, descending with
  reverse=True: relation keyB ≤ keyA, both stable on equal keys).
- Wall-clock timestamps (time.time()) are passed in explicitly as ℚ values;
  dataclass timestamp fields that only record the current time are omitted.
-/

deriving instance DecidableEq for Except

namespace ArbSent

/-- One market row for an asset, as consumed by
`CoinCapCollector._analyze_arbitrage_opportunities` after float conversion of
the priceUsd and volumeUsd24Hr dict entries. -/
structure Market where
  exchangeId : String
  priceUsd : ℚ
  volumeUsd24Hr : ℚ
deriving DecidableEq

/-- The ArbitrageData dataclass of coincap_collector.py (timestamp and the
constant data_source field omitted). -/
structure ArbitrageData where
  symbol : String
  buy_exchange : String
  sell_exchange : String
  buy_price : ℚ
  sell_price : ℚ
  spread_percentage : ℚ
  buy_volume_24h : ℚ
  sell_volume_24h : ℚ
  profit_potential : ℚ
deriving DecidableEq

/-- Ascending price order used by `sorted(markets, key=lambda x: float(x.get("priceUsd", 0)))`. -/
def priceLe (a b : Market) : Prop := a.priceUsd ≤ b.priceUsd

instance : DecidableRel priceLe :=
  fun a b => inferInstanceAs (Decidable (a.priceUsd ≤ b.priceUsd))

instance : IsTotal Market priceLe := ⟨fun a b => le_total a.priceUsd b.priceUsd⟩

instance : IsTrans Market priceLe := ⟨fun _ _ _ h1 h2 => le_trans h1 h2⟩

/-- Descending spread order used by
`sorted(opportunities, key=lambda x: x.spread_percentage, reverse=True)`. -/
def spreadGe (a b : ArbitrageData) : Prop := b.spread_percentage ≤ a.spread_percentage

instance : DecidableRel spreadGe :=
  fun a b => inferInstanceAs (Decidable (b.spread_percentage ≤ a.spread_percentage))

instance : IsTotal ArbitrageData spreadGe := ⟨fun a b => le_total b.spread_percentage a.spread_percentage⟩

instance : IsTrans ArbitrageData spreadGe := ⟨fun _ _ _ h1 h2 => le_trans h2 h1⟩

/-- Body of the inner loop of `_analyze_arbitrage_opportunities`: for one
(buy_market, sell_market) pair, skip it when a price is ≤ 0, otherwise build
an ArbitrageData when the spread meets the configured minimum. -/
def mkOpportunity (min_spread_percentage : ℚ) (symbol : String)
    (buy_market sell_market : Market) : Option ArbitrageData :=
  let buy_price := buy_market.priceUsd
  let sell_price := sell_market.priceUsd
  if buy_price ≤ 0 ∨ sell_price ≤ 0 then none
  else
    let spread_percentage := ((sell_price - buy_price) / buy_price) * 100
    if min_spread_percentage ≤ spread_percentage then
      let buy_volume := buy_market.volumeUsd24Hr
      let sell_volume := sell_market.volumeUsd24Hr
      some { symbol := symbol
             buy_exchange := buy_market.exchangeId
             sell_exchange := sell_market.exchangeId
             buy_price := buy_price
             sell_price := sell_price
             spread_percentage := spread_percentage
             buy_volume_24h := buy_volume
             sell_volume_24h := sell_volume
             profit_potential := (sell_price - buy_price) * min buy_volume sell_volume * (1 / 1000) }
    else none

/-- The double loop `for i, buy_market in enumerate(markets_sorted[:-1]): for
sell_market in markets_sorted[i+1:]`: all ordered pairs (i, j) with i < j, in
the same order the Python loops append them. -/
def pairOpportunities (min_spread_percentage : ℚ) (symbol : String) :
    List Market → List ArbitrageData
  | [] => []
  | m :: rest =>
      rest.filterMap (mkOpportunity min_spread_percentage symbol m) ++
        pairOpportunities min_spread_percentage symbol rest

/-- `CoinCapCollector._analyze_arbitrage_opportunities`: sort markets ascending
by price (stable), enumerate ordered pairs, keep pairs meeting the minimum
spread, and return them sorted descending by spread_percentage (stable). -/
def analyze_arbitrage_opportunities (min_spread_percentage : ℚ) (symbol : String)
    (markets : List Market) : List ArbitrageData :=
  let markets_sorted := markets.insertionSort priceLe
  (pairOpportunities min_spread_percentage symbol markets_sorted).insertionSort spreadGe

/-- The CollectorMetrics dataclass of coincap_collector.py (the timestamp
field, which only records time.time(), is omitted). -/
structure CollectorMetrics where
  total_time_seconds : ℚ
  exchanges_collected : Nat
  opportunities_found : Nat
  api_calls_made : Nat
  cache_hits : Nat
  errors_count : Nat
deriving DecidableEq

/-- `CoinCapCollector.collect_arbitrage_opportunities`, with the awaited
`api.get_arbitrage_opportunities(symbol)` call abstracted as an input: `.ok
markets` when the call returns a market list, `.error msg` when it raises (the
surrounding try/except catches every exception, counts it and returns []).
Returns the updated metrics together with the returned list; the function is
total, so no exception escapes the method body. -/
def collect_arbitrage_opportunities (min_volume_threshold min_spread_percentage : ℚ)
    (symbol : String) (marketsResult : Except String (List Market))
    (metrics : CollectorMetrics) : CollectorMetrics × List ArbitrageData :=
  let metrics := { metrics with api_calls_made := metrics.api_calls_made + 1 }
  match marketsResult with
  | .error _ => ({ metrics with errors_count := metrics.errors_count + 1 }, [])
  | .ok markets =>
    if markets.length < 2 then (metrics, [])
    else
      let liquid_markets := markets.filter (fun m => decide (min_volume_threshold ≤ m.volumeUsd24Hr))
      if liquid_markets.length < 2 then (metrics, [])
      else
        let opportunities := analyze_arbitrage_opportunities min_spread_percentage symbol liquid_markets
        ({ metrics with opportunities_found := opportunities.length }, opportunities)

/-- `CoinCapCollector.collect_exchanges_data`, with the awaited
`api.get_exchanges_data()` call abstracted as an input: `.ok (some rows)` when
the call returns a list (rows kept abstract), `.ok none` when it returns a
non-list value (the isinstance check fails), `.error msg` when it raises. -/
def collect_exchanges_data (exchangesResult : Except String (Option (List String)))
    (metrics : CollectorMetrics) : CollectorMetrics × List String :=
  let metrics := { metrics with api_calls_made := metrics.api_calls_made + 1 }
  match exchangesResult with
  | .error _ => ({ metrics with errors_count := metrics.errors_count + 1 }, [])
  | .ok none => ({ metrics with errors_count := metrics.errors_count + 1 }, [])
  | .ok (some exchanges_processed) =>
      ({ metrics with exchanges_collected := exchanges_processed.length }, exchanges_processed)

/-- The APIResponse dataclass shared by base_api_arbitragem.py, setup.py and
base_api_sentiment.py (timestamp omitted). -/
structure APIResponse (β : Type) where
  data : Option β
  status_code : Nat
  response_time_ms : ℚ
  success : Bool
  error_message : Option String := none
deriving DecidableEq

/-- What the network layer does for one `session.get` inside `_make_request`:
either the request ran and produced a status, a body text and a JSON parse
outcome for that body, or something in the try block raised with a message
(connection refused, timeout, DNS failure, malformed response, ...). -/
inductive HttpEvent (β : Type) where
  | reply (status : Nat) (jsonBody : Except String β) (text : String)
  | raised (msg : String)
deriving DecidableEq

/-- `BaseArbitragemAPI._make_request` / `BaseCryptoAPI._make_request` /
`BaseSentimentAPI._make_request`: on status 200 parse the JSON body and return
success (a parse failure is caught by the same except clause as any transport
failure); on any other status return failure with that status and the body
text; on a raised exception return failure with status 500 and the message.
The function is total: every call yields exactly one APIResponse. The measured
latency is passed in as `response_time_ms`. -/
def make_request {β : Type} (ev : HttpEvent β) (response_time_ms : ℚ) : APIResponse β :=
  match ev with
  | .reply status jsonBody text =>
    if status = 200 then
      match jsonBody with
      | .ok d => ⟨some d, status, response_time_ms, true, none⟩
      | .error msg => ⟨none, 500, response_time_ms, false, some msg⟩
    else ⟨none, status, response_time_ms, false, some text⟩
  | .raised msg => ⟨none, 500, response_time_ms, false, some msg⟩

/-- The rate limiter state held by every API base class: a counter and the
start of the current rolling window. -/
structure RateLimitState where
  request_count : Nat
  last_minute_start : ℚ
deriving DecidableEq

/-- `_handle_rate_limit` (identical in base_api_arbitragem.py, setup.py and
base_api_sentiment.py), as a state transformer: given the ceiling, the state
and the current time, return the next state and the time slept (0 when the
call proceeds immediately). An `asyncio.sleep wait` is modelled as advancing
the clock by exactly `wait`, so the `time.time()` read after the sleep is
`now + wait`. -/
def handle_rate_limit (rate_limit : Nat) (st : RateLimitState) (now : ℚ) :
    RateLimitState × ℚ :=
  let st1 := if 60 ≤ now - st.last_minute_start then RateLimitState.mk 0 now else st
  if rate_limit ≤ st1.request_count then
    let wait_time := 60 - (now - st1.last_minute_start)
    if 0 < wait_time then
      (⟨0 + 1, now + wait_time⟩, wait_time)
    else
      (⟨st1.request_count + 1, st1.last_minute_start⟩, 0)
  else
    (⟨st1.request_count + 1, st1.last_minute_start⟩, 0)

/-- A sequence of `_handle_rate_limit` calls at the given times, collecting
the individual sleep durations. -/
def acquire_seq (rate_limit : Nat) : RateLimitState → List ℚ → RateLimitState × List ℚ
  | st, [] => (st, [])
  | st, t :: ts =>
      let p := handle_rate_limit rate_limit st t
      let q := acquire_seq rate_limit p.1 ts
      (q.1, p.2 :: q.2)

/-- One CacheEntry of the TTL cache: key, value and absolute expiry time. -/
structure CacheEntry (α : Type) where
  key : String
  value : α
  expires_at : ℚ
deriving DecidableEq

/-- State of the TTL cache: its entry list plus the cache-hit counter. -/
structure TTLCacheState (α : Type) where
  entries : List (CacheEntry α)
  cache_hits : Nat
deriving DecidableEq

/-- Lookup of a live (non-expired) entry for a key at the given time. -/
def cache_lookup {α : Type} (key : String) (now : ℚ) (entries : List (CacheEntry α)) :
    Option (CacheEntry α) :=
  entries.find? (fun e => e.key == key && decide (now < e.expires_at))

/-- Modelled from the spec: the decorator `cache_with_ttl` is imported by
coincap_collector.py from core.decorators but its definition is not in the
repository sources; this follows section 4.3 of the spec (TTLCache,
`get_or_compute(key, ttl_seconds, compute)`): if a live entry exists for the
key, return its value and record a cache hit without invoking `compute`;
otherwise invoke `compute`, store the result with `expires_at = now +
ttl_seconds` (overwriting any stale entry for the key) and return it. The
returned Bool records whether `compute` was invoked. -/
def get_or_compute {α : Type} (key : String) (ttl_seconds : ℚ) (compute : Unit → α)
    (now : ℚ) (st : TTLCacheState α) : α × TTLCacheState α × Bool :=
  match cache_lookup key now st.entries with
  | some e => (e.value, ⟨st.entries, st.cache_hits + 1⟩, false)
  | none =>
      let v := compute ()
      (v, ⟨⟨key, v, now + ttl_seconds⟩ :: st.entries.filter (fun e => !(e.key == key)), st.cache_hits⟩, true)

/-- Outcome of one invocation of an operation wrapped by `retry_on_failure`:
success with a value, or an exception whose type is (`retryable = true`) or is
not (`retryable = false`) in the configured `exceptions` tuple. -/
inductive OpResult (α : Type) where
  | ok (v : α)
  | err (retryable : Bool) (msg : String)
deriving DecidableEq

/-- Observable trace of one call of a function wrapped by `retry_on_failure`:
the outcome (`Except.error (some msg)` models an exception with that message
escaping the wrapper, `Except.error none` models the final
`raise last_exception` executing with `last_exception = None`, which in Python
raises a TypeError), the number of backoff sleeps performed, and the number of
times the wrapped operation was invoked. -/
structure RetryTrace (α : Type) where
  result : Except (Option String) α
  delays : Nat
  calls : Nat
deriving DecidableEq

/-- `_calculate_delay(base_delay, use_jitter)` of decorators.py as seen by an
importer of the module: with `use_jitter = false` it returns `base_delay`;
with `use_jitter = true` it evaluates `random.uniform(...)`, but decorators.py
never imports `random` at module level (the only `import random` sits under
`if __name__ == "__main__"`), so the call raises `NameError: name random is
not defined`. -/
def calculate_delay (base_delay : ℚ) (use_jitter : Bool) : Except String ℚ :=
  if use_jitter then Except.error "NameError: name random is not defined"
  else Except.ok base_delay

/-- The attempt loop of `retry_on_failure`s sync_wrapper (the async_wrapper is
line-for-line identical with `await`s added): arguments are the current
attempt number, the remaining number of attempts (`max_attempts + 1 -
attempt`), the current delay, the delay and call counters, and the last
retryable exception seen. On a retryable failure with attempts remaining the
wrapper computes the backoff delay (which itself may raise, see
`calculate_delay`), sleeps, multiplies the delay by `backoff_factor` and
retries; on a retryable failure at the last attempt it breaks and re-raises
the last exception; on a non-retryable failure it re-raises immediately. -/
def retryAux {α : Type} (op : Nat → OpResult α) (backoff_factor : ℚ) (jitter : Bool) :
    Nat → Nat → ℚ → Nat → Nat → Option String → RetryTrace α
  | _, 0, _, delays, calls, last => ⟨Except.error last, delays, calls⟩
  | attempt, r + 1, current_delay, delays, calls, _ =>
    match op attempt with
    | .ok v => ⟨Except.ok v, delays, calls + 1⟩
    | .err true msg =>
        if r = 0 then ⟨Except.error (some msg), delays, calls + 1⟩
        else
          match calculate_delay current_delay jitter with
          | .error nameErr => ⟨Except.error (some nameErr), delays, calls + 1⟩
          | .ok _ =>
              retryAux op backoff_factor jitter (attempt + 1) r
                (current_delay * backoff_factor) (delays + 1) (calls + 1) (some msg)
    | .err false msg => ⟨Except.error (some msg), delays, calls + 1⟩

/-- A call of a function wrapped by
`retry_on_failure(max_attempts, delay, backoff_factor, jitter)`; `op n` is the
outcome of the n-th invocation of the wrapped operation (attempts are numbered
from 1 as in the Python loop `for attempt in range(1, max_attempts + 1)`). -/
def retry_on_failure {α : Type} (op : Nat → OpResult α) (max_attempts : Nat)
    (delay backoff_factor : ℚ) (jitter : Bool) : RetryTrace α :=
  retryAux op backoff_factor jitter 1 max_attempts delay 0 0 none

/-- The JSON dict returned by the CoinCap endpoints, as far as
`get_assets_per_exhange` inspects it: the optional top-level "data" field
(rows kept abstract, since the per-row mapping uses only total `.get` accesses
with defaults) and whether the dict has any other keys (so that Python
truthiness of the dict can be evaluated). -/
structure CoinCapPayload where
  dataField : Option (List String)
  otherKeys : Bool
deriving DecidableEq

/-- Python truthiness of `response.data` for a CoinCap response: None is
falsy, a dict is truthy iff it is non-empty. -/
def coincap_payload_truthy : Option CoinCapPayload → Bool
  | none => false
  | some p => p.dataField.isSome || p.otherKeys

/-- `CoinCapAPI.get_assets_per_exhange` error handling (get_assets_prices and
get_exchanges_data have the same structure): when `response.success and
response.data` holds, iterate over `response.data["data"]` — a missing "data"
key raises KeyError, which the except clause catches and converts into a bare
`raise Exception`; otherwise the else branch executes `raise Exception`
directly. The row mapping itself is total and kept abstract. The result is
`Except.error` whenever the method raises. -/
def get_assets_per_exhange (resp : APIResponse CoinCapPayload) : Except String (List String) :=
  if resp.success && coincap_payload_truthy resp.data then
    match resp.data with
    | some p =>
        match p.dataField with
        | some rows => Except.ok rows
        | none => Except.error "Exception (KeyError: data)"
    | none => Except.error "Exception"
  else Except.error "Exception"

/-- The JSON dict returned by the news endpoint, as far as `get_news`
inspects it: the optional "articles" field, rows kept abstract. -/
structure NewsPayload where
  articles : Option (List String)
deriving DecidableEq

/-- `NewsAPI.get_news` error handling: `if not response.success: return []`;
otherwise `response.data.get(articles, [])` — a missing "articles" key
falls back to the empty list (no exception), while `response.data` being None
would raise AttributeError (unreachable for responses built by
`_make_request`, which always sets data on success). -/
def get_news (resp : APIResponse NewsPayload) : Except String (List String) :=
  if resp.success = false then Except.ok []
  else
    match resp.data with
    | some p => Except.ok (p.articles.getD [])
    | none => Except.error "AttributeError"

/-! Concrete inputs used by the counterexamples and witnesses below. -/

/-- Two market rows for the same exchange at different prices (the same
exchange lists one asset in several quote pairs). -/
def mktsC1 : List Market := [⟨"binance", 100, 200000⟩, ⟨"binance", 101, 200000⟩]

/-- Two market rows on distinct exchanges. -/
def mktsC1w : List Market := [⟨"kraken", 100, 1000⟩, ⟨"gemini", 101, 1000⟩]

/-- The single opportunity produced from `mktsC1w` at minimum spread 0. -/
def oC1w : ArbitrageData := ⟨"btc", "kraken", "gemini", 100, 101, 1, 1000, 1000, 1⟩

/-- Three market rows, two of them at the same price. -/
def mktsP : List Market := [⟨"ex1", 100, 200000⟩, ⟨"ex2", 100, 200000⟩, ⟨"ex3", 110, 200000⟩]

/-- The same multiset of rows as `mktsP` with the equal-priced rows swapped. -/
def mktsQ : List Market := [⟨"ex2", 100, 200000⟩, ⟨"ex1", 100, 200000⟩, ⟨"ex3", 110, 200000⟩]

/-- A market list yielding exactly one opportunity at spread 1% ≥ 0.5%. -/
def mktsR1 : List Market := [⟨"ex1", 100, 200000⟩, ⟨"ex2", 101, 200000⟩]

/-- A liquid market list whose only pair has spread 0 < 0.5%, yielding no
opportunity. -/
def mktsR2 : List Market := [⟨"ex1", 100, 200000⟩, ⟨"ex2", 100, 200000⟩]

/-- A market list with no row meeting a volume threshold of 10. -/
def mktsC2w : List Market := [⟨"a", 100, 5⟩, ⟨"b", 101, 7⟩]

/-- Fresh metrics, as built in `CoinCapCollector.__init__` / reset_metrics. -/
def metrics0 : CollectorMetrics := ⟨0, 0, 0, 0, 0, 0⟩

/-- An operation failing with a retryable error on attempts 1 and 2 and
succeeding on attempt 3. -/
def opC4w : Nat → OpResult Nat := fun n => if n = 3 then .ok 7 else .err true "ConnectionError"

/-- An operation failing immediately with a non-retryable error. -/
def opC4w2 : Nat → OpResult Nat := fun _ => .err false "TypeError"

/-- An operation that always succeeds (never reached when max_attempts < 1). -/
def opC10w : Nat → OpResult Nat := fun _ => .ok 1

/-! Helper lemmas. -/

/-- Every pair produced by the inner double loop over a price-sorted market
list meets the configured minimum spread (that is the guard of the loop body)
and has its buy price below its sell price (because the buy market comes
earlier in the ascending price order). -/
theorem mem_pairOpportunities {minS : ℚ} {sym : String} {l : List Market} {o : ArbitrageData}
    (hs : l.Sorted priceLe) (ho : o ∈ pairOpportunities minS sym l) :
    minS ≤ o.spread_percentage ∧ o.buy_price ≤ o.sell_price := by
  induction l with
  | nil => simp [pairOpportunities] at ho
  | cons m rest ih =>
    rw [List.sorted_cons] at hs
    simp only [pairOpportunities, List.mem_append, List.mem_filterMap] at ho
    rcases ho with ⟨sell, hsell, heq⟩ | ho
    · unfold mkOpportunity at heq
      simp only at heq
      split at heq
      · exact absurd heq (by simp)
      · split at heq
        · rename_i hspread
          cases heq
          exact ⟨hspread, hs.1 sell hsell⟩
        · exact absurd heq (by simp)
    · exact ih hs.2 ho

/-- The attempt loop never invokes the wrapped operation more often than the
number of remaining attempts it was entered with. -/
theorem retryAux_calls_le {α : Type} (op : Nat → OpResult α) (b : ℚ) (jit : Bool) :
    ∀ (r attempt : Nat) (cur : ℚ) (delays calls : Nat) (last : Option String),
      (retryAux op b jit attempt r cur delays calls last).calls ≤ calls + r := by
  intro r
  induction r with
  | zero => intro attempt cur delays calls last; simp [retryAux]
  | succ r ih =>
    intro attempt cur delays calls last
    unfold retryAux
    rcases hop : op attempt with v | ⟨retryable, msg⟩
    · show calls + 1 ≤ calls + (r + 1)
      omega
    · rcases retryable with _ | _
      · show calls + 1 ≤ calls + (r + 1)
        omega
      · dsimp only
        by_cases hr : r = 0
        · rw [if_pos hr]
          show calls + 1 ≤ calls + (r + 1)
          omega
        · rw [if_neg hr]
          rcases hcd : calculate_delay cur jit with msg2 | d
          · show calls + 1 ≤ calls + (r + 1)
            omega
          · calc (retryAux op b jit (attempt + 1) r (cur * b) (delays + 1) (calls + 1) (some msg)).calls
                ≤ (calls + 1) + r := ih _ _ _ _ _
              _ ≤ calls + (r + 1) := by omega

/-! Claim theorems. -/

/-- C1 counterexample: the claim that every returned opportunity has
`buy_exchange ≠ sell_exchange` is false. `_analyze_arbitrage_opportunities`
never compares the two exchange ids, so two market rows of the same exchange
(one asset listed in several quote pairs) produce a self-arbitrage
opportunity: on `mktsC1` with min_spread 0.1 the full output is a single
opportunity buying and selling on "binance". -/
theorem analyze_opportunities_same_exchange :
    analyze_arbitrage_opportunities (1/10) "bitcoin" mktsC1 =
      [⟨"bitcoin", "binance", "binance", 100, 101, 1, 200000, 200000, 200⟩] ∧
    (analyze_arbitrage_opportunities (1/10) "bitcoin" mktsC1).all
      (fun o => o.buy_exchange != o.sell_exchange) = false := by
  exact ⟨by decide, by decide⟩

/-- C1 (amended): for every market list and every configuration, every
opportunity returned by `_analyze_arbitrage_opportunities` satisfies
`spread_pct ≥ min_spread_pct` and `buy_price ≤ sell_price`; the conjunct
`buy_exchange ≠ sell_exchange` of the original claim does not hold (see the
counterexample). -/
theorem analyze_opportunities_bounds (minS : ℚ) (sym : String) (markets : List Market)
    (o : ArbitrageData) (ho : o ∈ analyze_arbitrage_opportunities minS sym markets) :
    minS ≤ o.spread_percentage ∧ o.buy_price ≤ o.sell_price := by
  unfold analyze_arbitrage_opportunities at ho
  rw [List.mem_insertionSort] at ho
  exact mem_pairOpportunities (List.sorted_insertionSort priceLe markets) ho

/-- C1 witness: the theorem applied to a concrete opportunity of a concrete
run. -/
theorem analyze_opportunities_bounds_witness :
    oC1w ∈ analyze_arbitrage_opportunities 0 "btc" mktsC1w ∧
    (0 ≤ oC1w.spread_percentage ∧ oC1w.buy_price ≤ oC1w.sell_price) :=
  ⟨by decide, analyze_opportunities_bounds 0 "btc" mktsC1w oC1w (by decide)⟩

/-- C2: when fewer than 2 markets meet the volume threshold,
`collect_arbitrage_opportunities` returns the empty list (the function is
total, so nothing is raised; this covers both early-return branches, since a
market list of length < 2 also filters to fewer than 2 liquid markets). -/
theorem collect_arbitrage_empty_of_few_liquid (minV minS : ℚ) (sym : String)
    (markets : List Market) (metrics : CollectorMetrics)
    (h : (markets.filter (fun m => decide (minV ≤ m.volumeUsd24Hr))).length < 2) :
    (collect_arbitrage_opportunities minV minS sym (Except.ok markets) metrics).2 = [] := by
  unfold collect_arbitrage_opportunities
  by_cases h2 : markets.length < 2
  · simp [h2]
  · simp [h2, h]

/-- C2 witness: the theorem applied to a concrete illiquid market list. -/
theorem collect_arbitrage_empty_of_few_liquid_witness :
    (mktsC2w.filter (fun m => decide ((10:ℚ) ≤ m.volumeUsd24Hr))).length < 2 ∧
    (collect_arbitrage_opportunities 10 (1/10) "btc" (Except.ok mktsC2w) metrics0).2 = [] :=
  ⟨by decide, collect_arbitrage_empty_of_few_liquid 10 (1/10) "btc" mktsC2w metrics0 (by decide)⟩

/-- C3 counterexample: the claim that ties on spread_pct are broken by a
fixed deterministic key, making the output a function of the quote set alone,
is false. The final `sorted(..., key=spread, reverse=True)` is merely stable
on the generation order, which follows the input order among equal-priced
rows: `mktsP` and `mktsQ` are permutations of each other yet produce
different output sequences. -/
theorem analyze_opportunities_order_input_dependent :
    mktsP.Perm mktsQ ∧
      analyze_arbitrage_opportunities 0 "sym" mktsP ≠
        analyze_arbitrage_opportunities 0 "sym" mktsQ := by
  exact ⟨by decide, by decide⟩

/-- C3 (amended): the output of `_analyze_arbitrage_opportunities` is always
sorted in descending order of spread_percentage; ties are kept in generation
order (stable sort), so the order among equal spreads depends on the input
order and is not a function of the quote set alone (see the
counterexample). -/
theorem analyze_opportunities_sorted_desc (minS : ℚ) (sym : String) (markets : List Market) :
    (analyze_arbitrage_opportunities minS sym markets).Sorted spreadGe :=
  List.sorted_insertionSort spreadGe _

/-- C4: the retry contract, evaluated against the code as imported. With
jitter disabled the claim holds: an operation failing with a retryable error
on attempts 1 and 2 and succeeding on attempt 3 (max_attempts = 3) returns
the success value after exactly 2 backoff sleeps and 3 invocations; a
non-retryable failure propagates immediately with 0 sleeps and 1 invocation;
and the operation is never invoked more than max_attempts times. With the
default jitter = true, however, the first backoff evaluates
`random.uniform` although decorators.py never imports `random` at module
level, so the very scenario the claim describes raises NameError after 1
invocation and 0 sleeps instead of retrying: the code contradicts its own
documented behavior. -/
theorem retry_behavior_and_delay_bug {α : Type} (op : Nat → OpResult α) :
    (∀ (v : α) (m1 m2 : String), op 1 = .err true m1 → op 2 = .err true m2 → op 3 = .ok v →
       retry_on_failure op 3 1 2 false = ⟨Except.ok v, 2, 3⟩ ∧
       retry_on_failure op 3 1 2 true =
         ⟨Except.error (some "NameError: name random is not defined"), 0, 1⟩) ∧
    (∀ (m : Nat) (msg : String) (d b : ℚ) (jit : Bool), 1 ≤ m → op 1 = .err false msg →
       retry_on_failure op m d b jit = ⟨Except.error (some msg), 0, 1⟩) ∧
    (∀ (m : Nat) (d b : ℚ) (jit : Bool), (retry_on_failure op m d b jit).calls ≤ m) := by
  refine ⟨?_, ?_, ?_⟩
  · intro v m1 m2 h1 h2 h3
    constructor
    · simp [retry_on_failure, retryAux, h1, h2, h3, calculate_delay]
    · simp [retry_on_failure, retryAux, h1, calculate_delay]
  · intro m msg d b jit hm hop
    obtain ⟨k, rfl⟩ : ∃ k, m = k + 1 := ⟨m - 1, by omega⟩
    simp [retry_on_failure, retryAux, hop]
  · intro m d b jit
    simpa using retryAux_calls_le op b jit m 1 d 0 0 none

/-- C4 witness: the theorem applied to concrete operations. -/
theorem retry_behavior_and_delay_bug_witness :
    (retry_on_failure opC4w 3 1 2 false = ⟨Except.ok 7, 2, 3⟩ ∧
     retry_on_failure opC4w 3 1 2 true =
       ⟨Except.error (some "NameError: name random is not defined"), 0, 1⟩) ∧
    retry_on_failure opC4w2 2 1 2 true = ⟨Except.error (some "TypeError"), 0, 1⟩ ∧
    (retry_on_failure opC4w 5 1 2 false).calls ≤ 5 :=
  ⟨(retry_behavior_and_delay_bug opC4w).1 7 "ConnectionError" "ConnectionError" rfl rfl rfl,
   (retry_behavior_and_delay_bug opC4w2).2.1 2 "TypeError" 1 2 true (by decide) rfl,
   (retry_behavior_and_delay_bug opC4w).2.2 5 1 2 false⟩

/-- C10: with max_attempts < 1 the attempt loop `for attempt in range(1,
max_attempts + 1)` never runs, the wrapped operation is never invoked, no
sleep is performed, and the wrapper executes `raise last_exception` with
`last_exception = None` (modelled as `Except.error none`; in Python raising
None produces a TypeError), so the caller always receives an exception and
never a result. -/
theorem retry_zero_attempts_raises_none {α : Type} (op : Nat → OpResult α)
    (max_attempts : Nat) (d b : ℚ) (jit : Bool) (h : max_attempts < 1) :
    retry_on_failure op max_attempts d b jit = ⟨Except.error none, 0, 0⟩ := by
  have h0 : max_attempts = 0 := by omega
  subst h0
  rfl

/-- C10 witness: the theorem applied to a concrete operation. -/
theorem retry_zero_attempts_raises_none_witness :
    (0 < 1) ∧ retry_on_failure opC10w 0 1 2 true = ⟨Except.error none, 0, 0⟩ :=
  ⟨by decide, retry_zero_attempts_raises_none opC10w 0 1 2 true (by decide)⟩

/-- C5: `_make_request` is a total function of the transport event — every
call, success or failure, yields exactly one APIResponse and no exception
escapes — and on a raised transport-level exception it returns success =
false, status_code = 500 and the exception message as error_message. -/
theorem make_request_total_and_transport_failure {β : Type} (ev : HttpEvent β) (t : ℚ) :
    (∃! r, make_request ev t = r) ∧
    (∀ msg, ev = HttpEvent.raised msg →
       make_request ev t = ⟨none, 500, t, false, some msg⟩) := by
  refine ⟨⟨make_request ev t, rfl, fun r hr => hr.symm⟩, ?_⟩
  rintro msg rfl
  rfl

/-- C5 witness: the theorem applied to a concrete raised transport error. -/
theorem make_request_total_and_transport_failure_witness :
    (∃! r, make_request (HttpEvent.raised (β := Nat) "Cannot connect to host") 5 = r) ∧
    make_request (HttpEvent.raised (β := Nat) "Cannot connect to host") 5 =
      ⟨none, 500, 5, false, some "Cannot connect to host"⟩ :=
  ⟨(make_request_total_and_transport_failure (HttpEvent.raised "Cannot connect to host") 5).1,
   (make_request_total_and_transport_failure (HttpEvent.raised "Cannot connect to host") 5).2
     "Cannot connect to host" rfl⟩

/-- A run of `_handle_rate_limit` calls all lying strictly inside the current
window and leaving the counter at or below the ceiling sleeps nowhere and
only counts. -/
theorem acquire_seq_no_wait (N : Nat) (t0 : ℚ) :
    ∀ (ts : List ℚ) (k : Nat), (∀ u ∈ ts, u - t0 < 60) → k + ts.length ≤ N →
      acquire_seq N ⟨k, t0⟩ ts = (⟨k + ts.length, t0⟩, List.replicate ts.length 0) := by
  intro ts
  induction ts with
  | nil =>
    intro k _ _
    simp [acquire_seq]
  | cons t ts ih =>
    intro k hin hlen
    have ht : t - t0 < 60 := hin t (by simp)
    have hres : handle_rate_limit N ⟨k, t0⟩ t = (⟨k + 1, t0⟩, 0) := by
      unfold handle_rate_limit
      have h1 : ¬(60 ≤ t - t0) := by linarith
      have h2 : ¬(N ≤ k) := by
        simp only [List.length_cons] at hlen
        omega
      simp [h1, h2]
    have hrest := ih (k + 1) (fun u hu => hin u (by simp [hu])) (by
      simp only [List.length_cons] at hlen
      omega)
    simp only [acquire_seq, hres, hrest, List.length_cons, List.replicate_succ]
    rw [show k + 1 + ts.length = k + (ts.length + 1) from by omega]

/-- C6: starting from a fresh window (counter 0, window start t0), N acquire
calls at times strictly inside the window all return immediately (sleep 0)
while incrementing the counter, and the (N+1)th call at time t inside the
window sleeps for exactly 60 − (t − t0) > 0, after which the counter and
window start are reset (counter 0 at the rollover instant t0 + 60, then
incremented to 1 for this request). -/
theorem rate_limiter_window_behavior (N : Nat) (t0 : ℚ) (ts : List ℚ) (t : ℚ)
    (hlen : ts.length = N) (hin : ∀ u ∈ ts, u - t0 < 60) (ht : t - t0 < 60) :
    acquire_seq N ⟨0, t0⟩ ts = (⟨N, t0⟩, List.replicate N 0) ∧
    handle_rate_limit N ⟨N, t0⟩ t = (⟨1, t0 + 60⟩, 60 - (t - t0)) ∧
    0 < 60 - (t - t0) := by
  refine ⟨?_, ?_, by linarith⟩
  · have := acquire_seq_no_wait N t0 ts 0 hin (by omega)
    simpa [hlen] using this
  · unfold handle_rate_limit
    have h1 : ¬(60 ≤ t - t0) := by linarith
    have h2 : N ≤ N := le_refl N
    have h3 : 0 < 60 - (t - t0) := by linarith
    simp only [h1, if_false, if_pos h2, if_pos h3]
    rw [show t + (60 - (t - t0)) = t0 + 60 from by ring]

/-- C6 witness: the theorem applied to a concrete trace (ceiling 2, window
start 0, two calls at times 1 and 37, a third at time 59). -/
theorem rate_limiter_window_behavior_witness :
    ([(1:ℚ), 37].length = 2 ∧ (∀ u ∈ [(1:ℚ), 37], u - 0 < 60) ∧ (59:ℚ) - 0 < 60) ∧
    (acquire_seq 2 ⟨0, 0⟩ [(1:ℚ), 37] = (⟨2, 0⟩, List.replicate 2 0) ∧
     handle_rate_limit 2 ⟨2, 0⟩ 59 = (⟨1, (0:ℚ) + 60⟩, 60 - ((59:ℚ) - 0)) ∧
     (0:ℚ) < 60 - ((59:ℚ) - 0)) :=
  ⟨⟨by decide, by decide, by decide⟩,
   rate_limiter_window_behavior 2 0 [1, 37] 59 (by decide) (by decide) (by decide)⟩

/-- C7: starting from an empty cache, the first `get_or_compute` for a key
invokes `compute` and stores the result; a second call for the same key
within ttl seconds returns the cached value without invoking `compute` (so
two calls within ttl invoke `compute` exactly once); a further call after the
entry has expired invokes `compute` again; and in general a call that does
not invoke `compute` returned the value of a live (non-expired) entry — an
expired entry is never returned. -/
theorem ttl_cache_get_or_compute_behavior {α : Type} (compute : Unit → α) (key : String)
    (ttl t0 t1 t2 : ℚ) (hlive : t1 - t0 < ttl) (hexp : ttl < t2 - t0) :
    (get_or_compute key ttl compute t0 (TTLCacheState.mk [] 0)).2.2 = true ∧
    (get_or_compute key ttl compute t0 (TTLCacheState.mk [] 0)).1 = compute () ∧
    (get_or_compute key ttl compute t1
        (get_or_compute key ttl compute t0 (TTLCacheState.mk [] 0)).2.1).2.2 = false ∧
    (get_or_compute key ttl compute t1
        (get_or_compute key ttl compute t0 (TTLCacheState.mk [] 0)).2.1).1 = compute () ∧
    (get_or_compute key ttl compute t2
        (get_or_compute key ttl compute t1
          (get_or_compute key ttl compute t0 (TTLCacheState.mk [] 0)).2.1).2.1).2.2 = true ∧
    (∀ (st : TTLCacheState α) (now : ℚ),
        (get_or_compute key ttl compute now st).2.2 = false →
        ∃ e ∈ st.entries, e.key = key ∧ now < e.expires_at ∧
          (get_or_compute key ttl compute now st).1 = e.value) := by
  have hl1 : t1 < t0 + ttl := by linarith
  have hl2 : ¬(t2 < t0 + ttl) := by linarith
  have step1 : get_or_compute key ttl compute t0 (TTLCacheState.mk [] 0) =
      (compute (), ⟨[⟨key, compute (), t0 + ttl⟩], 0⟩, true) := by
    simp [get_or_compute, cache_lookup]
  have step2 : get_or_compute key ttl compute t1
      (TTLCacheState.mk [⟨key, compute (), t0 + ttl⟩] 0) =
      (compute (), ⟨[⟨key, compute (), t0 + ttl⟩], 1⟩, false) := by
    simp [get_or_compute, cache_lookup, List.find?, hl1]
  have step3 : (get_or_compute key ttl compute t2
      (TTLCacheState.mk [⟨key, compute (), t0 + ttl⟩] 1)).2.2 = true := by
    simp [get_or_compute, cache_lookup, List.find?, hl2]
  refine ⟨?_, ?_, ?_, ?_, ?_, ?_⟩
  · rw [step1]
  · rw [step1]
  · rw [step1, step2]
  · rw [step1, step2]
  · rw [step1, step2]
    exact step3
  · intro st now hmiss
    rcases hfind : cache_lookup key now st.entries with _ | e
    · exfalso
      unfold get_or_compute at hmiss
      rw [hfind] at hmiss
      simp at hmiss
    · have hfind2 : st.entries.find? (fun e => e.key == key && decide (now < e.expires_at)) =
          some e := hfind
      have hval : (get_or_compute key ttl compute now st).1 = e.value := by
        unfold get_or_compute
        rw [hfind]
      have hmem : e ∈ st.entries := List.mem_of_find?_eq_some hfind2
      have hpred := List.find?_some hfind2
      simp only [Bool.and_eq_true, beq_iff_eq, decide_eq_true_eq] at hpred
      exact ⟨e, hmem, hpred.1, hpred.2, hval⟩

/-- C7 witness: the theorem applied to a concrete key, ttl and clock. -/
theorem ttl_cache_get_or_compute_behavior_witness :
    ((5:ℚ) - 0 < 10 ∧ (10:ℚ) < 20 - 0) ∧
    ((get_or_compute "a" 10 (fun _ => (42:Nat)) 0 (TTLCacheState.mk [] 0)).2.2 = true ∧
     (get_or_compute "a" 10 (fun _ => (42:Nat)) 0 (TTLCacheState.mk [] 0)).1 = (fun _ => (42:Nat)) () ∧
     (get_or_compute "a" 10 (fun _ => (42:Nat)) 5
        (get_or_compute "a" 10 (fun _ => (42:Nat)) 0 (TTLCacheState.mk [] 0)).2.1).2.2 = false ∧
     (get_or_compute "a" 10 (fun _ => (42:Nat)) 5
        (get_or_compute "a" 10 (fun _ => (42:Nat)) 0 (TTLCacheState.mk [] 0)).2.1).1 = (fun _ => (42:Nat)) () ∧
     (get_or_compute "a" 10 (fun _ => (42:Nat)) 20
        (get_or_compute "a" 10 (fun _ => (42:Nat)) 5
          (get_or_compute "a" 10 (fun _ => (42:Nat)) 0 (TTLCacheState.mk [] 0)).2.1).2.1).2.2 = true ∧
     (∀ (st : TTLCacheState Nat) (now : ℚ),
        (get_or_compute "a" 10 (fun _ => (42:Nat)) now st).2.2 = false →
        ∃ e ∈ st.entries, e.key = "a" ∧ now < e.expires_at ∧
          (get_or_compute "a" 10 (fun _ => (42:Nat)) now st).1 = e.value)) :=
  ⟨⟨by decide, by decide⟩,
   ttl_cache_get_or_compute_behavior (fun _ => (42:Nat)) "a" 10 0 5 20 (by decide) (by decide)⟩

/-- C8 counterexample: the claim that on ok == false every adapter fetch
method returns an empty collection rather than raising is false for the
CoinCap adapter: on a failed response `get_assets_per_exhange` executes
`raise Exception` instead of returning []. -/
theorem coincap_adapter_raises_on_failure :
    get_assets_per_exhange ⟨none, 404, 12, false, some "Not Found"⟩ =
      Except.error "Exception" ∧
    get_assets_per_exhange ⟨none, 404, 12, false, some "Not Found"⟩ ≠
      Except.ok [] := by
  exact ⟨by decide, by decide⟩

/-- C8 (amended): on ok == false the news adapter returns the empty list
without raising, and it also returns the empty list (rather than raising a
SourceUnavailable error) when the top-level articles field is absent; the
CoinCap adapter instead raises a generic Exception whenever ok == false or
the payload is falsy, and raises a generic Exception (from the KeyError) when
the top-level data field is absent. -/
theorem adapter_failure_handling :
    (∀ (resp : APIResponse CoinCapPayload), resp.success = false →
       get_assets_per_exhange resp = Except.error "Exception") ∧
    (∀ (resp : APIResponse NewsPayload), resp.success = false →
       get_news resp = Except.ok []) ∧
    (∀ (p : NewsPayload) (code : Nat) (rt : ℚ), p.articles = none →
       get_news ⟨some p, code, rt, true, none⟩ = Except.ok []) ∧
    (∀ (p : CoinCapPayload) (code : Nat) (rt : ℚ), p.dataField = none → p.otherKeys = true →
       get_assets_per_exhange ⟨some p, code, rt, true, none⟩ =
         Except.error "Exception (KeyError: data)") := by
  refine ⟨?_, ?_, ?_, ?_⟩
  · intro resp hfail
    unfold get_assets_per_exhange
    rw [hfail]
    rfl
  · intro resp hfail
    unfold get_news
    rw [hfail]
    rfl
  · intro p code rt hnone
    unfold get_news
    simp [hnone]
  · intro p code rt hdata hother
    unfold get_assets_per_exhange
    simp [coincap_payload_truthy, hdata, hother]

/-- C8 witness: the theorem applied to concrete responses and payloads. -/
theorem adapter_failure_handling_witness :
    get_assets_per_exhange ⟨none, 500, 3, false, some "boom"⟩ = Except.error "Exception" ∧
    get_news ⟨none, 500, 3, false, some "boom"⟩ = Except.ok [] ∧
    get_news ⟨some ⟨none⟩, 200, 3, true, none⟩ = Except.ok [] ∧
    get_assets_per_exhange ⟨some ⟨none, true⟩, 200, 3, true, none⟩ =
      Except.error "Exception (KeyError: data)" :=
  ⟨adapter_failure_handling.1 ⟨none, 500, 3, false, some "boom"⟩ rfl,
   adapter_failure_handling.2.1 ⟨none, 500, 3, false, some "boom"⟩ rfl,
   adapter_failure_handling.2.2.1 ⟨none⟩ 200 3 rfl,
   adapter_failure_handling.2.2.2 ⟨none, true⟩ 200 3 rfl rfl⟩

/-- C9 counterexample: the claim that every RunMetrics counter is
monotonically non-decreasing within a run is false: opportunities_found is
assigned (`= len(opportunities)`), not incremented, so a collection for a
second symbol with fewer opportunities lowers it. After a run over `mktsR1`
(one opportunity) a run over `mktsR2` (zero opportunities, both markets
liquid but spread 0 < 0.5) drops opportunities_found from 1 to 0. -/
theorem opportunities_found_decreases :
    ((collect_arbitrage_opportunities 100000 (1/2) "bitcoin" (Except.ok mktsR1)
        metrics0).1.opportunities_found = 1) ∧
    ((collect_arbitrage_opportunities 100000 (1/2) "ethereum" (Except.ok mktsR2)
        (collect_arbitrage_opportunities 100000 (1/2) "bitcoin" (Except.ok mktsR1)
          metrics0).1).1.opportunities_found = 0) := by
  exact ⟨by decide, by decide⟩

/-- C9 (amended): within a run the incremented counters api_calls_made and
errors_count never decrease across `collect_arbitrage_opportunities` and
`collect_exchanges_data`, and cache_hits is untouched by them; the assigned
counters opportunities_found and exchanges_collected are set to the size of
the latest collection and may decrease (see the counterexample). -/
theorem metrics_counters_monotonicity (minV minS : ℚ) (sym : String)
    (marketsResult : Except String (List Market))
    (exchangesResult : Except String (Option (List String)))
    (metrics : CollectorMetrics) :
    (metrics.api_calls_made ≤
        (collect_arbitrage_opportunities minV minS sym marketsResult metrics).1.api_calls_made ∧
     metrics.errors_count ≤
        (collect_arbitrage_opportunities minV minS sym marketsResult metrics).1.errors_count ∧
     metrics.cache_hits =
        (collect_arbitrage_opportunities minV minS sym marketsResult metrics).1.cache_hits) ∧
    (metrics.api_calls_made ≤
        (collect_exchanges_data exchangesResult metrics).1.api_calls_made ∧
     metrics.errors_count ≤
        (collect_exchanges_data exchangesResult metrics).1.errors_count ∧
     metrics.cache_hits =
        (collect_exchanges_data exchangesResult metrics).1.cache_hits) := by
  constructor
  · unfold collect_arbitrage_opportunities
    rcases marketsResult with msg | markets
    · simp
    · by_cases h2 : markets.length < 2
      · simp [h2]
      · by_cases hl : (markets.filter (fun m => decide (minV ≤ m.volumeUsd24Hr))).length < 2
        · simp [h2, hl]
        · simp [h2, hl]
  · unfold collect_exchanges_data
    rcases exchangesResult with msg | oe
    · simp
    · rcases oe with _ | exs
      · simp
      · simp

end ArbSent
